import Mathlib

/-!
Verification of the yagna docker-tap packet pump core
(`exe-unit/docker-tap/pump/src/network.c`, `forward.c`, `pump.c`).

The C code is shallowly embedded. I/O calls (`read`, `recvfrom`, `sendto`,
`write`, io_uring completions) are modelled by explicit result oracles: a
step function consumes the next result the kernel would have returned.
Machine integers are `Nat`/`Int` with explicit `% 2^16` where the C uses
`uint16_t`. Byte buffers are `List Nat` holding byte values; a staging
buffer is represented by its live prefix (the bytes the code has written
and may still read), since the surrounding slack of the fixed-size C
arrays is never consumed by the loops modelled here.
-/

set_option linter.unusedVariables false

namespace PumpModel

/-- Host byte order. The C code stores and loads the 2-byte length field
through `union b_u16 { uint16_t i; char b[2]; }`, so the on-wire byte
order is whatever the host uses; we carry it as a parameter. -/
inductive Endian
  | little
  | big
deriving DecidableEq, Repr

/-- Memory bytes produced by `view->i = count` (a `uint16_t` store) for a
value `i` (truncated mod 2^16): on a little-endian host byte 0 is the low
byte, on a big-endian host byte 0 is the high byte. -/
def b_u16_store : Endian → Nat → List Nat
  | .little, i => [i % 256, i / 256 % 256]
  | .big,    i => [i / 256 % 256, i % 256]

/-- Value read by `view->i` (a `uint16_t` load) from memory bytes
`b0, b1` under the given host byte order. -/
def b_u16_load : Endian → Nat → Nat → Nat
  | .little, b0, b1 => b0 + 256 * b1
  | .big,    b0, b1 => 256 * b0 + b1

/-! ### network.c : the datagram pump

`pump` (network.c:442-553) keeps per direction a staging buffer, a
total byte count and an offset. One `while(1)` iteration handles, after
`select`, the TAP→socket half (lines 480-514) and then the
socket→TAP half (lines 516-549). `continue` in the first half skips
the second half. -/

/-- Result of `read`/`recvfrom`: data returned (possibly empty, the
`count == 0` case), `EAGAIN`, or another errno. -/
inductive RecvRes
  | ok (data : List Nat)
  | again
  | err (e : Nat)
deriving DecidableEq, Repr

/-- Result of `sendto`/`write`: byte count accepted, `EAGAIN`, or
another errno. -/
inductive SendRes
  | ok (n : Nat)
  | again
  | err (e : Nat)
deriving DecidableEq, Repr

/-- TAP→socket direction state: staging buffer (live prefix), `rtotal`,
`roff` (network.c:465-466). -/
structure RState where
  buf : List Nat
  rtotal : Nat
  roff : Nat
deriving DecidableEq, Repr

/-- Outcome of the TAP→socket half of one loop iteration: `exit e`
models `return errno;`, `skip s` models `continue;` (the socket half of
this iteration is skipped), `through s sent` models falling through to
the socket half having emitted `sent` on the wire. -/
inductive ROut
  | exit (e : Nat)
  | skip (s : RState)
  | through (s : RState) (sent : List Nat)
deriving DecidableEq, Repr

/-- Effect of a successful `sendto` returning `n` (network.c:508-513):
the kernel took the first `n` bytes of the range `buf + roff`,
`roff += n`, and `if (roff >= rtotal) { roff = 0; rtotal = 0; }`. -/
def sendOk (s : RState) (n : Nat) : RState × List Nat :=
  let sent := (s.buf.drop s.roff).take n
  if s.rtotal ≤ s.roff + n then (⟨s.buf, 0, 0⟩, sent)
  else (⟨s.buf, s.rtotal, s.roff + n⟩, sent)

/-- The `sendto` call and its error handling (network.c:500-513). -/
def sendPhase (s : RState) : SendRes → ROut
  | .again => .skip s
  | .err e => .exit e
  | .ok n => .through (sendOk s n).1 (sendOk s n).2

/-- TAP→socket half of one pump iteration (network.c:480-514), entered
when `select` reported the TAP readable. When idle (`rtotal == 0`) the
code reads a frame into `rbuf + 2`, stores its length into the first two
bytes through the union, sets `rtotal = count + hsz`, `roff = 0`, and
falls through to `sendto`; when busy it goes directly to `sendto`. -/
def rstep (e : Endian) (s : RState) (rd : RecvRes) (snd : SendRes) : ROut :=
  if s.rtotal = 0 then
    match rd with
    | .again => .skip s
    | .err er => .exit er
    | .ok data =>
      if data.length = 0 then .skip s
      else sendPhase ⟨b_u16_store e data.length ++ data, data.length + 2, 0⟩ snd
  else sendPhase s snd

/-- Repeated `sendto` successes draining a frame: folds `sendOk` over a
list of kernel return values, collecting everything emitted. -/
def drainFrame (s : RState) : List Nat → RState × List Nat
  | [] => (s, [])
  | n :: ns =>
    let p := sendOk s n
    let q := drainFrame p.1 ns
    (q.1, p.2 ++ q.2)

/-- The byte count `pump` passes to `read(tun_fd, rbuf + hsz, mtu)`:
the function first does `mtu += hsz` (network.c:451-452), so the read
is asked for MTU+2 bytes even though only MTU+2-2 fit after the
reserved header. -/
def tapReadLimit (mtu : Nat) : Nat := mtu + 2

/-- Socket→TAP direction state: staging buffer (the received datagram
bytes), `wtotal`, `woff` (network.c:465-466). -/
structure WState where
  buf : List Nat
  wtotal : Nat
  woff : Nat
deriving DecidableEq, Repr

/-- Outcome of the socket→TAP half: `exit e` models `return errno;`,
`cont s written` ends the iteration with `written` passed to the TAP. -/
inductive WOut
  | exit (e : Nat)
  | cont (s : WState) (written : List Nat)
deriving DecidableEq, Repr

/-- The `write(tun_fd, wbuf + woff + hsz, wtotal - woff)` call and the
trailing reset (network.c:533-548). -/
def writePhase (s : WState) (wres : SendRes) : WOut :=
  if s.woff < s.wtotal then
    match wres with
    | .again => .cont s []
    | .err e => .exit e
    | .ok n =>
      let written := (s.buf.drop (2 + s.woff)).take n
      if s.wtotal ≤ s.woff + n then .cont ⟨s.buf, 0, 0⟩ written
      else .cont ⟨s.buf, s.wtotal, s.woff + n⟩ written
  else .cont ⟨s.buf, 0, 0⟩ []

/-- Socket→TAP half of one pump iteration (network.c:516-549). When
idle the code does `recvfrom` into `wbuf`, then decodes
`wtotal = view->i` from the first two bytes — with no check of
`wtotal` against the MTU — and falls through to the TAP write. -/
def wstep (e : Endian) (s : WState) (rcv : RecvRes) (wres : SendRes) : WOut :=
  if s.wtotal = 0 then
    match rcv with
    | .again => .cont s []
    | .err er => .exit er
    | .ok data =>
      if data.length = 0 then .cont s []
      else writePhase ⟨data, b_u16_load e (data.getD 0 0) (data.getD 1 0), s.woff⟩ wres
  else writePhase s wres

/-- The length argument of the pending TAP write for a busy
socket→TAP state: `wtotal - woff` (network.c:534). -/
def tapWriteReq (s : WState) : Nat := s.wtotal - s.woff

/-- Combined pump state. -/
structure PumpState where
  r : RState
  w : WState
deriving DecidableEq, Repr

/-- Outcome of one full `while(1)` iteration of `pump`. -/
inductive PumpOut
  | cont (s : PumpState) (sent written : List Nat)
  | exit (e : Nat)
deriving DecidableEq, Repr

/-- One iteration of the `pump` loop (network.c:469-550) after `select`
returned with the given readiness bits. The loop is `while (1)`: the
body never consults the process-wide shutdown flag `working` (which
lives in forward.c), so the parameter is unused, mirroring the source. -/
def pumpIter (working : Bool) (e : Endian) (s : PumpState)
    (tunReady sockReady : Bool)
    (rd : RecvRes) (snd : SendRes) (rcv : RecvRes) (wres : SendRes) : PumpOut :=
  let sockHalf : RState → List Nat → PumpOut := fun r2 sent =>
    if sockReady then
      match wstep e s.w rcv wres with
      | .exit er => .exit er
      | .cont w2 written => .cont ⟨r2, w2⟩ sent written
    else .cont ⟨r2, s.w⟩ sent []
  if tunReady then
    match rstep e s.r rd snd with
    | .exit er => .exit er
    | .skip r2 => .cont ⟨r2, s.w⟩ [] []
    | .through r2 sent => sockHalf r2 sent
  else sockHalf s.r []

/-! ### forward.c : the generic framed forwarder

`fwd` (forward.c:330-427) runs `while (working)`, per iteration doing an
optional exact 2-byte header read, a payload read, and a plain or
vectored write, through `read_fd` / `write_fd` / `writev_fd`
(forward.c:142-328). io_uring completions are modelled by oracles: each
loop iteration consumes the next completion result (`cqe->res` plus the
bytes delivered). io_uring plumbing (`get_sqe`, `wait_cqe`) is assumed
to succeed. -/

/-- Result of a call to `read_fd`: `ret = none` means the loop was still
waiting on a completion when the oracle ran out (the call blocks), `dst`
is the prefix of the destination buffer filled so far, `reqs` lists each
submitted read request as `(offset, length)` into the buffer. -/
structure ReadFdOut where
  ret : Option Int
  dst : List Nat
  reqs : List (Nat × Nat)
deriving DecidableEq, Repr

/-- Loop body of `read_fd` (forward.c:158-221). `ro` and `rc` are
`uint16_t` in the source, hence the `% 65536`. A negative completion
prints an error and does `return 0;` (forward.c:194-199); a zero
completion (EOF) does `continue;` (forward.c:203-205); a positive one
advances `ro` and, when not `exct`, breaks. -/
def read_fd_loop (working exct : Bool) (count ro : Nat) (dst : List Nat)
    (reqs : List (Nat × Nat)) : List (Int × List Nat) → ReadFdOut
  | [] =>
    if working && decide (ro < count) then
      ⟨none, dst, reqs ++ [(ro, count - ro)]⟩
    else ⟨some (ro : Int), dst, reqs⟩
  | (res, data) :: rest =>
    if working && decide (ro < count) then
      let reqs2 := reqs ++ [(ro, count - ro)]
      if res < 0 then ⟨some 0, dst, reqs2⟩
      else
        let rc := res.toNat % 65536
        if rc = 0 then read_fd_loop working exct count ro dst reqs2 rest
        else
          let ro2 := (ro + rc) % 65536
          let dst2 := dst ++ data.take rc
          if exct then read_fd_loop working exct count ro2 dst2 reqs2 rest
          else ⟨some (ro2 : Int), dst2, reqs2⟩
    else ⟨some (ro : Int), dst, reqs⟩

/-- `read_fd` (forward.c:142-224): gather up to `count` bytes, exactly
`count` when `exct` is set. -/
def read_fd (working : Bool) (count : Nat) (exct : Bool)
    (results : List (Int × List Nat)) : ReadFdOut :=
  read_fd_loop working exct count 0 [] [] results

/-- Result of `write_fd` / `writev_fd`: `ret = none` means still waiting
when the oracle ran out, `emitted` is everything the kernel consumed,
`reqs` records each submission. -/
structure WriteFdOut where
  ret : Option Int
  emitted : List Nat
  reqs : List Nat
deriving DecidableEq, Repr

/-- Loop body of `write_fd` (forward.c:248-274): submit
`write(src + wo, count - wo)`, on a negative completion `return -2;`,
otherwise `wo += wc` and retry until `wo >= count`; returns 0. -/
def write_fd_loop (working : Bool) (src : List Nat) (count wo : Nat)
    (emitted : List Nat) (reqs : List Nat) : List Int → WriteFdOut
  | [] =>
    if working && decide (wo < count) then ⟨none, emitted, reqs ++ [count - wo]⟩
    else ⟨some 0, emitted, reqs⟩
  | wc :: rest =>
    if working && decide (wo < count) then
      let reqs2 := reqs ++ [count - wo]
      if wc < 0 then ⟨some (-2), emitted, reqs2⟩
      else write_fd_loop working src count (wo + wc.toNat)
        (emitted ++ (src.drop wo).take wc.toNat) reqs2 rest
    else ⟨some 0, emitted, reqs⟩

/-- `write_fd` (forward.c:235-277). -/
def write_fd (working : Bool) (src : List Nat) (count : Nat)
    (results : List Int) : WriteFdOut :=
  write_fd_loop working src count 0 [] [] results

/-- The completion target computed by `writev_fd` (forward.c:293-295):
`for (size_t i = 0; i < nr_vecs; ++i) count = iovecs[i].iov_len;` —
repeated assignment, so the result is the LAST iovec's length (0 when
there are none), not the sum. -/
def writevCount (iovs : List (List Nat)) : Nat :=
  iovs.foldl (fun _ v => v.length) 0

/-- Result of `writev_fd`: `reqs` records, per submission, the iovec
lengths submitted (the code always resubmits the whole vector). -/
structure WritevFdOut where
  ret : Option Int
  emitted : List Nat
  reqs : List (List Nat)
deriving DecidableEq, Repr

/-- Loop body of `writev_fd` (forward.c:297-325): each pass submits the
FULL iovec array again (`io_uring_prep_writev(sqe, fd, iovecs, nr_vecs, 0)`
with no offset advance), so the kernel consumes a fresh prefix of the
concatenated ranges each time; `wo += wc` counts progress against the
mis-computed `count`. A negative completion returns it. -/
def writev_fd_loop (working : Bool) (iovs : List (List Nat)) (count wo : Nat)
    (emitted : List Nat) (reqs : List (List Nat)) : List Int → WritevFdOut
  | [] =>
    if working && decide (wo < count) then
      ⟨none, emitted, reqs ++ [iovs.map List.length]⟩
    else ⟨some 0, emitted, reqs⟩
  | wc :: rest =>
    if working && decide (wo < count) then
      let reqs2 := reqs ++ [iovs.map List.length]
      if wc < 0 then ⟨some wc, emitted, reqs2⟩
      else writev_fd_loop working iovs count (wo + wc.toNat)
        (emitted ++ iovs.flatten.take wc.toNat) reqs2 rest
    else ⟨some 0, emitted, reqs⟩

/-- `writev_fd` (forward.c:279-328). -/
def writev_fd (working : Bool) (iovs : List (List Nat))
    (results : List Int) : WritevFdOut :=
  writev_fd_loop working iovs (writevCount iovs) 0 [] [] results

/-- Completion oracles for one iteration of the `fwd` loop: results fed
to the header read, the payload read, and the write. -/
structure FwdIterIn where
  hdrRes : List (Int × List Nat)
  payRes : List (Int × List Nat)
  wrRes : List Int
deriving DecidableEq, Repr

/-- A data I/O submission made by a forwarder worker. -/
inductive IoCall
  | rd (off len : Nat)
  | wr (len : Nat)
  | wrv (lens : List Nat)
deriving DecidableEq, Repr

/-- Outcome of one `fwd` loop iteration: `exit ret` models `goto end`
followed by `return ret`, `next` models reaching the end of the body or
`continue`, `blocked` means an inner loop was still waiting when its
oracle ran out. -/
inductive FwdIterOut
  | exit (ret : Int)
  | next
  | blocked
deriving DecidableEq, Repr

/-- Read requests rendered as I/O calls. -/
def reqsToCalls (reqs : List (Nat × Nat)) : List IoCall :=
  reqs.map fun r => .rd r.1 r.2

/-- Steps 2-3 of a `fwd` iteration (forward.c:385-418): read up to
`count` bytes (exactly `count` when framed), set `sz.i = ret` and
`continue` when it is 0, else write the payload, length-prefixed through
`writev_fd` when `write_hdr` is set. -/
def fwdIterBody (working wh : Bool) (e : Endian) (count : Nat) (exct : Bool)
    (inp : FwdIterIn) (acc : List IoCall) : FwdIterOut × List IoCall :=
  let r2 := read_fd working count exct inp.payRes
  let acc2 := acc ++ reqsToCalls r2.reqs
  match r2.ret with
  | none => (.blocked, acc2)
  | some ret2 =>
    if ret2 < 0 then (.exit ret2, acc2)
    else
      let szi := ret2.toNat % 65536
      if szi = 0 then (.next, acc2)
      else
        let payload := r2.dst.take szi
        if wh then
          let w := writev_fd working [b_u16_store e szi, payload] inp.wrRes
          let acc3 := acc2 ++ w.reqs.map fun ls => IoCall.wrv ls
          match w.ret with
          | none => (.blocked, acc3)
          | some wret => if wret < 0 then (.exit wret, acc3) else (.next, acc3)
        else
          let w := write_fd working payload szi inp.wrRes
          let acc3 := acc2 ++ w.reqs.map fun l => IoCall.wr l
          match w.ret with
          | none => (.blocked, acc3)
          | some wret => if wret < 0 then (.exit wret, acc3) else (.next, acc3)

/-- One iteration of the `fwd` loop (forward.c:366-419). With
`read_hdr` set: read exactly 2 bytes, load the length through the union
(`sz.b[0] = buf[0]; sz.b[1] = buf[1];`, host byte order), and use it as
the payload read count; otherwise the count is `read_sz`. A negative
header-read return exits; note `read_fd` only returns a negative value
for io_uring plumbing failures, never for failed reads. -/
def fwdIter (working rh wh : Bool) (rsz : Nat) (e : Endian)
    (inp : FwdIterIn) : FwdIterOut × List IoCall :=
  if rh then
    let r1 := read_fd working 2 true inp.hdrRes
    let acc := reqsToCalls r1.reqs
    match r1.ret with
    | none => (.blocked, acc)
    | some ret1 =>
      if ret1 < 0 then (.exit ret1, acc)
      else fwdIterBody working wh e
        (b_u16_load e (r1.dst.getD 0 0) (r1.dst.getD 1 0)) true inp acc
  else fwdIterBody working wh e rsz false inp []

/-- The `while (working)` loop of `fwd` (forward.c:366-427), one oracle
entry per iteration. `working` is the process-wide shutdown flag
(forward.c:27), cleared by `fwd_stop` (forward.c:138-140); it is read at
each loop top. When the loop is never entered `fwd` returns `ret`,
which holds 0 after a successful setup. Returns the final return value
(`none` while still running) and every data I/O call submitted. -/
def fwdRun (working rh wh : Bool) (rsz : Nat) (e : Endian) :
    List FwdIterIn → Option Int × List IoCall
  | [] => if working then (none, []) else (some 0, [])
  | inp :: rest =>
    if working then
      match fwdIter working rh wh rsz e inp with
      | (.exit r, cs) => (some r, cs)
      | (.blocked, cs) => (none, cs)
      | (.next, cs) =>
        let t := fwdRun working rh wh rsz e rest
        (t.1, cs ++ t.2)
    else (some 0, [])

/-- Whether the read request `req = (offset, length)` touches buffer
offset `off`. -/
def reqTargets (req : Nat × Nat) (off : Nat) : Bool :=
  decide (req.1 ≤ off) && decide (off < req.1 + req.2)

/-! ### Helper lemmas -/

/-- Splitting a `take` of a sum into two adjacent slices. -/
theorem take_add_split (l : List α) : ∀ (m n : Nat),
    l.take (m + n) = l.take m ++ (l.drop m).take n := by
  induction l with
  | nil => intro m n; simp
  | cons a l ih =>
    intro m n
    cases m with
    | zero => simp
    | succ m =>
      have h : m + 1 + n = (m + n) + 1 := by omega
      rw [h]
      simp [ih m n]

/-- Draining a busy TAP→socket frame with any sequence of `sendto`
return values that totals the remaining byte count emits exactly the
remaining slice of the staging buffer, once. -/
theorem drainFrame_emits (ns : List Nat) :
    ∀ s : RState, s.roff ≤ s.rtotal → s.rtotal ≤ s.buf.length →
      ns.sum = s.rtotal - s.roff →
      (drainFrame s ns).2 = (s.buf.drop s.roff).take (s.rtotal - s.roff) := by
  induction ns with
  | nil =>
    intro s h1 h2 h3
    simp only [List.sum_nil] at h3
    simp [drainFrame, ← h3]
  | cons n ns ih =>
    intro s h1 h2 h3
    simp only [List.sum_cons] at h3
    by_cases hc : s.rtotal ≤ s.roff + n
    · have hn : n = s.rtotal - s.roff := by omega
      have hz : ns.sum = 0 := by omega
      have ihz := ih ⟨s.buf, 0, 0⟩ (by simp) (by simp) (by simpa using hz)
      simp only [drainFrame, sendOk, if_pos hc]
      simp only [drainFrame, sendOk] at ihz
      simp [ihz, hn]
    · have hlt : s.roff + n < s.rtotal := by omega
      have ihs := ih ⟨s.buf, s.rtotal, s.roff + n⟩ (by simp; omega) (by simpa using h2)
        (by simp; omega)
      simp only [drainFrame, sendOk, if_neg hc]
      simp only at ihs
      rw [ihs]
      have hdd : s.buf.drop (s.roff + n) = (s.buf.drop s.roff).drop n := by
        rw [List.drop_drop]
      rw [hdd, ← take_add_split]
      congr 1
      omega

/-! ### Claim theorems -/

/-- C1: the claim states that an ingress datagram whose decoded length
exceeds the MTU is discarded, an error counter is incremented and the
direction returns to idle. The code (network.c:516-548) has no such
check: with MTU 1486 a datagram with header bytes `00 10` decodes to
`wtotal = 4096`, the direction becomes busy (not idle) and the next step
is a `write` of 4096 bytes to the TAP, reading far past both the
2-byte datagram and the 1488-byte staging buffer. No error counter
exists in the source. -/
theorem claim_c1 :
    wstep .little ⟨[], 0, 0⟩ (.ok [0, 16]) .again = .cont ⟨[0, 16], 4096, 0⟩ [] ∧
    b_u16_load .little 0 16 = 4096 ∧
    1486 < 4096 ∧
    tapWriteReq ⟨[0, 16], 4096, 0⟩ = 4096 := by
  refine ⟨?_, by decide, by decide, by decide⟩
  decide

/-- C5: the claim states that `writev_fd` completes against the
accumulated sum of all range lengths and advances through the ranges on
partial progress. The code (forward.c:293-295) computes the target by
repeated assignment — for ranges of lengths 2 and 4 the target is 4,
not 6 — and every retry resubmits the whole iovec array from offset 0
(forward.c:304), so a run with two partial completions of 3 bytes each
emits the first three bytes twice and never emits the last three. -/
theorem claim_c5 :
    writevCount [[10, 11], [20, 21, 22, 23]] = 4 ∧
    (([[10, 11], [20, 21, 22, 23]] : List (List Nat)).map List.length).sum = 6 ∧
    writev_fd true [[10, 11], [20, 21, 22, 23]] [3, 3]
      = ⟨some 0, [10, 11, 20, 10, 11, 20], [[2, 4], [2, 4]]⟩ ∧
    [10, 11, 20, 10, 11, 20] ≠ ([[10, 11], [20, 21, 22, 23]] : List (List Nat)).flatten := by
  refine ⟨by decide, by decide, ?_, by decide⟩
  decide

/-- C6: the claim states that an exact read hitting EOF before `N`
bytes fails with `UnexpectedEof`. In the code a zero completion takes
`if (rc <= 0) continue;` (forward.c:203-205): the read is resubmitted
forever. After three EOF completions the 2-byte exact header read is
still waiting on a fourth (result `none`), with four identical
submissions recorded; there is no `UnexpectedEof` return path, so `fwd`
also never observes EOF to exit cleanly. -/
theorem claim_c6 :
    read_fd true 2 true [(0, []), (0, []), (0, [])]
      = ⟨none, [], [(0, 2), (0, 2), (0, 2), (0, 2)]⟩ := by
  decide

/-- C7: the claim states that a non-transient read errno is fatal for
the worker. In the code a negative completion makes `read_fd` print and
`return 0;` (forward.c:194-199); `fwd` then runs `sz.i = ret;
if (sz.i <= 0) continue;` (forward.c:391-394). Concretely, a header
read failing with `cqe->res = -9` (EBADF) yields return value 0 and the
iteration outcome `next`: the worker continues looping instead of
terminating. -/
theorem claim_c7 :
    read_fd true 2 true [(-9, [])] = ⟨some 0, [], [(0, 2)]⟩ ∧
    fwdIter true true false 1500 .little ⟨[(-9, [])], [], []⟩ = (.next, [.rd 0 2]) := by
  refine ⟨by decide, ?_⟩
  decide

set_option maxRecDepth 8192 in
/-- C8: the claim states the per-direction invariant
`0 ≤ offset ≤ total ≤ MTU+2` and in particular that no TAP read can set
`rtotal` above MTU+2. `pump` does `mtu += hsz` and then asks
`read(tun_fd, rbuf + hsz, mtu)` for MTU+2 bytes (network.c:451-482), so
with MTU 590 a 591-byte TAP read is within the limit the code itself
passes, and it sets `rtotal = 593 > 592 = MTU+2` (the payload copy at
offset 2 also overruns the MTU+2-byte staging buffer). -/
theorem claim_c8 :
    rstep .little ⟨[], 0, 0⟩ (.ok (List.replicate 591 7)) .again
      = .skip ⟨b_u16_store .little 591 ++ List.replicate 591 7, 593, 0⟩ ∧
    (List.replicate 591 7).length ≤ tapReadLimit 590 ∧
    590 + 2 < 593 := by
  refine ⟨?_, by simp [tapReadLimit], by norm_num⟩
  rfl

/-- C10: the claim states that in the framed forwarder every payload
read stays inside the `malloc(read_sz)` buffer of size S. The code
takes the decoded header length with no bound check as the read count
(forward.c:377-385): with S = 1500 and header bytes `FF FF` the decoded
length is 65535 and the very first submitted read request is
`(offset 0, length 65535)` into the 1500-byte buffer — it targets
offset 1500 and far beyond. -/
theorem claim_c10 :
    b_u16_load .little 255 255 = 65535 ∧
    fwdIter true true false 1500 .little ⟨[(2, [255, 255])], [], []⟩
      = (.blocked, [.rd 0 2, .rd 0 65535]) ∧
    reqTargets (0, 65535) 1500 = true := by
  refine ⟨by decide, ?_, by decide⟩
  decide

/-- C2 counterexample: the claim asserts the little-endian wire layout
`L & 0xFF, (L >> 8) & 0xFF` regardless of host endianness, but the
header is stored through the `b_u16` union in host byte order: on a
big-endian host a 1-byte payload frame drains to wire bytes
`[0, 1, 42]`, whose first two bytes are swapped relative to the claimed
`[1, 0, 42]`. -/
theorem claim_c2_counterexample :
    rstep .big ⟨[], 0, 0⟩ (.ok [42]) .again = .skip ⟨[0, 1, 42], 3, 0⟩ ∧
    (drainFrame ⟨[0, 1, 42], 3, 0⟩ [3]).2 = [0, 1, 42] ∧
    [0, 1, 42] ≠ [1 % 256, (1 >>> 8) % 256, 42] := by
  refine ⟨?_, by decide, by decide⟩
  decide

/-- C3 counterexample: the claim asserts that the pump's `run()` loop
observes the shutdown flag at loop top and returns 0 on clean shutdown.
The `pump` loop is `while (1)` (network.c:469) and never references the
flag: with the flag already cleared (`working = false`, i.e. after
`stop()`), an iteration with the TAP readable still reads a frame and
sends it (nonempty wire output), continuing instead of returning 0. -/
theorem claim_c3_counterexample :
    pumpIter false .little ⟨⟨[], 0, 0⟩, ⟨[], 0, 0⟩⟩ true false
        (.ok [5]) (.ok 3) .again .again
      = .cont ⟨⟨[1, 0, 5], 0, 0⟩, ⟨[], 0, 0⟩⟩ [1, 0, 5] [] ∧
    ([1, 0, 5] : List Nat) ≠ [] := by
  refine ⟨?_, by decide⟩
  decide

/-- C2 (amended): on a little-endian host, a frame of nonempty payload
`p` read from the TAP is staged as the two little-endian length bytes
followed by `p`, and draining it with any sequence of `sendto` returns
totalling `p.length + 2` emits exactly
`p.length & 0xFF, (p.length >> 8) & 0xFF` followed by `p`. -/
theorem claim_c2 (p ns : List Nat) (s : RState)
    (h0 : s.rtotal = 0) (hp : p ≠ []) (hL : p.length ≤ 65535) :
    rstep .little s (.ok p) .again
      = .skip ⟨b_u16_store .little p.length ++ p, p.length + 2, 0⟩ ∧
    (ns.sum = p.length + 2 →
      (drainFrame ⟨b_u16_store .little p.length ++ p, p.length + 2, 0⟩ ns).2
        = (p.length % 256) :: ((p.length >>> 8) % 256) :: p) := by
  constructor
  · simp [rstep, h0, sendPhase, hp]
  · intro hsum
    have hd := drainFrame_emits ns ⟨b_u16_store .little p.length ++ p, p.length + 2, 0⟩
      (by simp) (by simp [b_u16_store]) (by simpa using hsum)
    simp only at hd
    rw [hd]
    simp [b_u16_store, Nat.shiftRight_eq_div_pow]

/-- C2 witness: the spec's own example — a 4-byte payload
`DE AD BE EF` goes on the wire as `04 00 DE AD BE EF`. -/
theorem claim_c2_witness :
    rstep .little ⟨[], 0, 0⟩ (.ok [222, 173, 190, 239]) .again
      = .skip ⟨[4, 0, 222, 173, 190, 239], 6, 0⟩ ∧
    (drainFrame ⟨[4, 0, 222, 173, 190, 239], 6, 0⟩ [6]).2
      = [4, 0, 222, 173, 190, 239] := by
  have h := claim_c2 [222, 173, 190, 239] [6] ⟨[], 0, 0⟩ rfl (by decide) (by decide)
  have h2 : (drainFrame ⟨[4, 0, 222, 173, 190, 239], 6, 0⟩ [6]).2
      = [4 % 256, 4 >>> 8 % 256, 222, 173, 190, 239] := h.2 (by decide)
  constructor
  · have h1 := h.1
    rw [h1]
    decide
  · rw [h2]
    decide

/-- C3 (amended): once the shutdown flag is observed cleared, every
generic-forwarder worker loop returns at once, with no further I/O
submission: `read_fd` returns 0 with no requests, `write_fd` and
`writev_fd` return 0 with nothing submitted, and the `fwd` loop exits
with return value 0 having submitted no data I/O. (The datagram pump,
by contrast, never consults the flag — see the counterexample.) -/
theorem claim_c3 :
    (∀ (count : Nat) (exct : Bool) (results : List (Int × List Nat)),
      read_fd false count exct results = ⟨some 0, [], []⟩) ∧
    (∀ (src : List Nat) (count : Nat) (results : List Int),
      write_fd false src count results = ⟨some 0, [], []⟩) ∧
    (∀ (iovs : List (List Nat)) (results : List Int),
      writev_fd false iovs results = ⟨some 0, [], []⟩) ∧
    (∀ (rh wh : Bool) (rsz : Nat) (e : Endian) (ins : List FwdIterIn),
      fwdRun false rh wh rsz e ins = (some 0, [])) := by
  refine ⟨?_, ?_, ?_, ?_⟩
  · intro count exct results
    cases results <;> simp [read_fd, read_fd_loop]
  · intro src count results
    cases results <;> simp [write_fd, write_fd_loop]
  · intro iovs results
    cases results <;> simp [writev_fd, writev_fd_loop]
  · intro rh wh rsz e ins
    cases ins <;> simp [fwdRun]

/-- C4: in the TAP→socket direction a partial `sendto` of `n` bytes
(with `n` short of the remainder) advances `roff` by exactly `n`,
leaving buffer and total unchanged, having emitted exactly the `n`
bytes at the old offset; `EAGAIN` changes nothing; and draining the
frame with send returns totalling the remainder emits exactly the
remaining slice of the staging buffer — no duplication, no loss. -/
theorem claim_c4 (e : Endian) (s : RState) (rd : RecvRes) (n : Nat)
    (hbusy : s.rtotal ≠ 0) (hn : s.roff + n < s.rtotal) :
    rstep e s rd (.ok n)
      = .through ⟨s.buf, s.rtotal, s.roff + n⟩ ((s.buf.drop s.roff).take n) ∧
    rstep e s rd .again = .skip s ∧
    (∀ ns : List Nat, s.roff ≤ s.rtotal → s.rtotal ≤ s.buf.length →
      ns.sum = s.rtotal - s.roff →
      (drainFrame s ns).2 = (s.buf.drop s.roff).take (s.rtotal - s.roff)) := by
  refine ⟨?_, ?_, ?_⟩
  · have hif : ¬ s.rtotal ≤ s.roff + n := by omega
    simp [rstep, hbusy, sendPhase, sendOk, hif]
  · simp [rstep, hbusy, sendPhase]
  · intro ns h1 h2 h3
    exact drainFrame_emits ns s h1 h2 h3

/-- C4 witness: a 4-byte frame at offset 1; a partial send of 2
advances the offset to 3 emitting bytes `[2, 3]`, `EAGAIN` is a no-op,
and sends of 2 then 1 drain the remaining `[2, 3, 4]` exactly. -/
theorem claim_c4_witness :
    rstep .little ⟨[1, 2, 3, 4], 4, 1⟩ .again (.ok 2)
      = .through ⟨[1, 2, 3, 4], 4, 3⟩ ((([1, 2, 3, 4] : List Nat).drop 1).take 2) ∧
    rstep .little ⟨[1, 2, 3, 4], 4, 1⟩ .again .again = .skip ⟨[1, 2, 3, 4], 4, 1⟩ ∧
    (drainFrame ⟨[1, 2, 3, 4], 4, 1⟩ [2, 1]).2
      = (([1, 2, 3, 4] : List Nat).drop 1).take (4 - 1) := by
  have h := claim_c4 .little ⟨[1, 2, 3, 4], 4, 1⟩ .again 2 (by decide) (by decide)
  exact ⟨h.1, h.2.1, h.2.2 [2, 1] (by decide) (by decide) (by decide)⟩

/-- C9: storing a length `L ≤ 65535` through the `b_u16` union and
loading it back through the same union yields `L`, on either host byte
order (the encode/decode round-trip of the frame codec). -/
theorem claim_c9 (e : Endian) (L : Nat) (h : L ≤ 65535) :
    b_u16_load e ((b_u16_store e L).getD 0 0) ((b_u16_store e L).getD 1 0) = L := by
  cases e <;> simp [b_u16_store, b_u16_load] <;> omega

/-- C9 witness: round-trip at `L = 513`. -/
theorem claim_c9_witness :
    (513 : Nat) ≤ 65535 ∧
    b_u16_load .little ((b_u16_store .little 513).getD 0 0)
      ((b_u16_store .little 513).getD 1 0) = 513 :=
  ⟨by decide, claim_c9 .little 513 (by decide)⟩

end PumpModel
